import Mathlib

/-!
Verification of the diagnnose activation-extraction and contrastive-evaluation
core.  The definitions below are shallow embeddings of the Python source:

* `final_token`                        — activations/selection_funcs.py
* `validate`, `create_zero_init_states`— activations/init_states.py (InitStates)
* `create_unk_sen_mask`, `calc_accuracy`, `singleContextAccuracy`,
  `dualContextAccuracy`                — downstream/tasks/task.py (DownstreamTask)
* `warstadtAccuracy`                   — downstream/warstadt/downstream.py

Tensors are modelled as lists over a linear ordered field `α` (instantiated at
`ℚ` for executable checks and at `ℝ` when the transcendental `log_softmax` is
involved); the model's `exp`/`log` backend is passed explicitly as the function
arguments `rexp`/`rlog`.  `torch.mean` of an empty tensor yields NaN, which is
modelled by `Option`: `none` stands for the NaN result on an empty input.
-/

namespace Diagnnose

/-- One corpus example, as used by the downstream tasks: the primary token
sequence `sen`, the stable sentence id `sen_idx`, and the target and counter
target token fields. -/
structure CorpusExample where
  sen : List String
  sen_idx : ℕ
  token : String
  counter_token : String
deriving DecidableEq, Inhabited, Repr

/-- Embedding of `selection_funcs.final_token`: the Python body is
`len(item.sen) == (w_idx + 1)`. -/
def final_token (w_idx : ℕ) (item : CorpusExample) : Bool :=
  item.sen.length == w_idx + 1

section Field

variable {α : Type} [LinearOrderedField α]

/-- Dot product of two vectors, the effect of `torch.bmm` on one row pair. -/
def dot (v w : List α) : α :=
  (List.zipWith (fun a b => a * b) v w).sum

/-- `torch.mean(...).item()`: `none` models the NaN produced on an empty
tensor; otherwise the sum divided by the length. -/
def mean (l : List α) : Option α :=
  if l.length = 0 then none else some (l.sum / (l.length : α))

/-- `(x >= y).to(torch.float)` for one element. -/
def geInd (x y : α) : α := if y ≤ x then 1 else 0

/-- `(x > y).to(torch.float)` for one element. -/
def gtInd (x y : α) : α := if y < x then 1 else 0

/-- Boolean-mask indexing `t[mask]` of torch: keep the rows whose mask entry
is `true`, preserving order. -/
def maskFilter {β : Type} (mask : List Bool) (xs : List β) : List β :=
  ((mask.zip xs).filter (fun p => p.1)).map (fun p => p.2)

/-- One row of `activations @ decoder_w.t() + decoder_b`: entry `i` is
`dot (w i) a + b i`. -/
def matVecRow (w : List (List α)) (b : List α) (a : List α) : List α :=
  List.zipWith (fun wi bi => dot wi a + bi) w b

/-- `log(sum(exp(v)))`, the normalizer of `log_softmax`, with the numeric
backend's `exp` and `log` passed explicitly. -/
def logSumExp (rexp rlog : α → α) (v : List α) : α :=
  rlog ((v.map rexp).sum)

/-- `torch.nn.functional.log_softmax` applied to one row (`dim=1` acts
row-wise): every entry is shifted by the row's log-sum-exp. -/
def logSoftmaxRow (rexp rlog : α → α) (v : List α) : List α :=
  v.map (fun x => x - logSumExp rexp rlog v)

/-- Embedding of `DownstreamTask.single_context_accuracy`: gather decoder rows
and biases for the target and the counter target ids, form the bmm logits,
add the biases, compare with `>=`, and take the mean. -/
def singleContextAccuracy (w : List (List α)) (b : List α)
    (activations : List (List α)) (tokenIds counterIds : List ℕ) : Option α :=
  let decoderW := tokenIds.map (fun t => w.getD t [])
  let decoderB := tokenIds.map (fun t => b.getD t 0)
  let counterW := counterIds.map (fun t => w.getD t [])
  let counterB := counterIds.map (fun t => b.getD t 0)
  let logits := List.zipWith (fun wr a => dot wr a) decoderW activations
  let logits2 := List.zipWith (fun x y => x + y) logits decoderB
  let counterLogits := List.zipWith (fun wr a => dot wr a) counterW activations
  let counterLogits2 := List.zipWith (fun x y => x + y) counterLogits counterB
  mean (List.zipWith geInd logits2 counterLogits2)

/-- Embedding of `DownstreamTask.dual_context_accuracy`.  In full-probability
mode the full-vocabulary logits of both contexts are log-softmax normalized
before the target id's entries are compared; in restricted mode only the
target id's raw logits (without the decoder bias) are compared. -/
def dualContextAccuracy (rexp rlog : α → α) (w : List (List α)) (b : List α)
    (activations counterActivations : List (List α)) (tokenIds : List ℕ)
    (useFullModelProbs : Bool) : Option α :=
  if useFullModelProbs then
    let probs := activations.map (fun a => logSoftmaxRow rexp rlog (matVecRow w b a))
    let counterProbs :=
      counterActivations.map (fun a => logSoftmaxRow rexp rlog (matVecRow w b a))
    let probsAtTok := List.zipWith (fun row t => row.getD t 0) probs tokenIds
    let counterAtTok := List.zipWith (fun row t => row.getD t 0) counterProbs tokenIds
    mean (List.zipWith geInd probsAtTok counterAtTok)
  else
    let decoderW := tokenIds.map (fun t => w.getD t [])
    let logits := List.zipWith (fun wr a => dot wr a) decoderW activations
    let counterLogits := List.zipWith (fun wr a => dot wr a) decoderW counterActivations
    mean (List.zipWith geInd logits counterLogits)

/-- Embedding of the accuracy computation of `warstadt_downstream`
(downstream/warstadt/downstream.py, lines 138-147): per example the decoder
row of the npi class is dotted with the final hidden state of each context,
the decoder bias is added only when `addDecBias` is set, and the comparison
is the strict `probs > wprobs`. -/
def warstadtAccuracy (w : List (List α)) (b : List α)
    (finalHidden wfinalHidden : List (List α)) (classes : List ℕ)
    (addDecBias : Bool) : Option α :=
  let probs := List.zipWith (fun t h => dot (w.getD t []) h) classes finalHidden
  let wprobs := List.zipWith (fun t h => dot (w.getD t []) h) classes wfinalHidden
  let probs2 :=
    if addDecBias then List.zipWith (fun p t => p + b.getD t 0) probs classes else probs
  let wprobs2 :=
    if addDecBias then List.zipWith (fun p t => p + b.getD t 0) wprobs classes else wprobs
  mean (List.zipWith gtInd probs2 wprobs2)

end Field

/-- Modelled from the spec: the vocabulary attached by `diagnnose.vocab`
(`attach_vocab`, not under src/) is a bidirectional token-to-id mapping whose
`stoi` lookup of an absent string fails with a vocabulary-lookup error
(spec section 7: VocabLookupError) rather than substituting a default id. -/
def stoiLookup (vocab : List (String × ℕ)) (w : String) : Except String ℕ :=
  match List.lookup w vocab with
  | some i => Except.ok i
  | none => Except.error ("KeyError: " ++ w)

/-- The Python list comprehension `[corpus.vocab.stoi[f(ex)] for ex in corpus]`:
evaluated left to right, failing at the first missing entry. -/
def lookupTokens (vocab : List (String × ℕ)) (f : CorpusExample → String) :
    List CorpusExample → Except String (List ℕ)
  | [] => Except.ok []
  | ex :: rest =>
    match stoiLookup vocab (f ex) with
    | Except.error e => Except.error e
    | Except.ok i =>
      match lookupTokens vocab f rest with
      | Except.error e => Except.error e
      | Except.ok is => Except.ok (i :: is)

/-- The warning text emitted by `create_unk_sen_mask` for one missing token. -/
def unkWarning (w : String) : String :=
  "\x27" ++ w ++ "\x27 is not part of model vocab!"

/-- Embedding of `DownstreamTask.create_unk_sen_mask`, together with the list
of warnings it emits: when `ignoreUnk` is set, a sentence is retained iff all
of its `sen` tokens are in the vocabulary, and one warning is emitted per
missing token occurrence; otherwise the all-true mask with no warnings. -/
def create_unk_sen_mask (vocab : List (String × ℕ)) (corpus : List CorpusExample)
    (ignoreUnk : Bool) : List Bool × List String :=
  if ignoreUnk then
    (corpus.map (fun ex => ex.sen.all (fun t => (List.lookup t vocab).isSome)),
     (corpus.map (fun ex =>
       (ex.sen.filter (fun t => (List.lookup t vocab).isNone)).map unkWarning)).flatten)
  else
    (List.replicate corpus.length true, [])

section FieldAcc

variable {α : Type} [LinearOrderedField α]

/-- Embedding of `DownstreamTask.calc_accuracy`: build the unk mask, filter the
activations, look up the target token id of every example of the corpus
(before masking, exactly as the source's list comprehension does), filter the
id vector, and dispatch on the presence of counter activations.  The returned
pair carries the accuracy and the warnings of the mask construction. -/
def calc_accuracy (rexp rlog : α → α) (w : List (List α)) (b : List α)
    (vocab : List (String × ℕ)) (corpus : List CorpusExample)
    (activations : List (List α)) (counterActivations : Option (List (List α)))
    (useFullModelProbs ignoreUnk : Bool) : Except String (Option α × List String) :=
  let mw := create_unk_sen_mask vocab corpus ignoreUnk
  let activations2 := maskFilter mw.1 activations
  match lookupTokens vocab (fun ex => ex.token) corpus with
  | Except.error e => Except.error e
  | Except.ok tokenIds =>
    let tokenIds2 := maskFilter mw.1 tokenIds
    match counterActivations with
    | none =>
      match lookupTokens vocab (fun ex => ex.counter_token) corpus with
      | Except.error e => Except.error e
      | Except.ok counterIds =>
        Except.ok
          (singleContextAccuracy w b activations2 tokenIds2 (maskFilter mw.1 counterIds),
           mw.2)
    | some cacts =>
      Except.ok
        (dualContextAccuracy rexp rlog w b activations2 (maskFilter mw.1 cacts)
          tokenIds2 useFullModelProbs,
         mw.2)

/-- One layer entry of a persisted initial-state bundle: the `hx` and `cx`
keys may each be present or absent. -/
structure BundleEntry (α : Type) where
  hx : Option (List α)
  cx : Option (List α)
deriving DecidableEq

/-- The per-layer loop of `InitStates._validate`, iterating the given layer
indices in order: a missing layer key raises the dict `KeyError`, a missing
`hx`/`cx` key and a wrong vector length raise the source's assertion
messages. -/
def validateLayers (hSize cSize : ℕ → ℕ) (bundle : List (ℕ × BundleEntry α)) :
    List ℕ → Except String Unit
  | [] => Except.ok ()
  | l :: rest =>
    match List.lookup l bundle with
    | none => Except.error ("KeyError: " ++ toString l)
    | some e =>
      match e.hx, e.cx with
      | some hv, some cv =>
        if hv.length ≠ hSize l then
          Except.error ("Initial activation size for hx is incorrect: hx: "
            ++ toString hv.length ++ ", should be " ++ toString (hSize l))
        else if cv.length ≠ cSize l then
          Except.error ("Initial activation size for cx is incorrect: cx: "
            ++ toString cv.length ++ ", should be " ++ toString (cSize l))
        else validateLayers hSize cSize bundle rest
      | _, _ => Except.error "Initial layer names not correct, should be hx and cx"

/-- Embedding of `InitStates._validate`: first the layer-count assertion, then
the per-layer checks over layers `0, ..., numLayers - 1` in order. -/
def validate (numLayers : ℕ) (hSize cSize : ℕ → ℕ)
    (bundle : List (ℕ × BundleEntry α)) : Except String Unit :=
  if bundle.length = numLayers then validateLayers hSize cSize bundle (List.range numLayers)
  else Except.error "Number of initial layers not correct"

/-- A produced init-state array: unbatched vector or batched matrix, the two
shapes `_create_zero_state` can return. -/
inductive Arr (α : Type) where
  | vec : List α → Arr α
  | mat : List (List α) → Arr α
deriving DecidableEq

/-- Embedding of `InitStates._create_zero_state`: with a configured batch size
a `(batchSize, size)` zero matrix, otherwise a `(size,)` zero vector.  (The
numpy/torch backend flag only selects the array library, not the shape or
contents, so it is not modelled.) -/
def createZeroState (batchSize : Option ℕ) (size : ℕ) : Arr α :=
  match batchSize with
  | some bs => Arr.mat (List.replicate bs (List.replicate size 0))
  | none => Arr.vec (List.replicate size 0)

/-- One layer of the zero init states, with the source's `cx`-first key
order. -/
structure ZeroLayer (α : Type) where
  cx : Arr α
  hx : Arr α
deriving DecidableEq

/-- Embedding of `InitStates.create_zero_init_states`: the dict comprehension
over `l in range(num_layers)`. -/
def create_zero_init_states (numLayers : ℕ) (hSize cSize : ℕ → ℕ)
    (batchSize : Option ℕ) : List (ℕ × ZeroLayer α) :=
  (List.range numLayers).map (fun l =>
    (l, { cx := createZeroState batchSize (cSize l)
          hx := createZeroState batchSize (hSize l) }))

end FieldAcc

/-- Indexing a mapped list below its length. -/
theorem list_getD_map {β γ : Type} (f : β → γ) :
    ∀ (l : List β) (i : ℕ) (d1 : β) (d2 : γ), i < l.length →
      (l.map f).getD i d2 = f (l.getD i d1)
  | [], i, _, _, h => absurd h (by simp)
  | _ :: _, 0, _, _, _ => rfl
  | _ :: t, i + 1, d1, d2, h => by
      simp only [List.map_cons, List.getD_cons_succ]
      exact list_getD_map f t i d1 d2 (by simpa using h)

/-- Indexing a zipWith below both lengths. -/
theorem list_getD_zipWith {β γ δ : Type} (f : β → γ → δ) :
    ∀ (l1 : List β) (l2 : List γ) (i : ℕ) (d1 : β) (d2 : γ) (d3 : δ),
      i < l1.length → i < l2.length →
      (List.zipWith f l1 l2).getD i d3 = f (l1.getD i d1) (l2.getD i d2)
  | [], _, _, _, _, _, h1, _ => absurd h1 (by simp)
  | _ :: _, [], _, _, _, _, _, h2 => absurd h2 (by simp)
  | _ :: _, _ :: _, 0, _, _, _, _, _ => rfl
  | _ :: t1, _ :: t2, i + 1, d1, d2, d3, h1, h2 => by
      simp only [List.zipWith_cons_cons, List.getD_cons_succ]
      exact list_getD_zipWith f t1 t2 i d1 d2 d3 (by simpa using h1) (by simpa using h2)

/-- Indexing a replicate below its length. -/
theorem list_getD_replicate {β : Type} (x : β) :
    ∀ (n i : ℕ) (d : β), i < n → (List.replicate n x).getD i d = x
  | 0, _, _, h => absurd h (by simp)
  | _ + 1, 0, _, _ => rfl
  | n + 1, i + 1, d, h => by
      simp only [List.replicate_succ, List.getD_cons_succ]
      exact list_getD_replicate x n i d (by omega)

/-- A zipWith of two lists of length `n`, rewritten as a map over
`List.range n` with default-valued indexing. -/
theorem list_zipWith_eq_range_map {β γ δ : Type} (f : β → γ → δ) (d1 : β) (d2 : γ) :
    ∀ (l1 : List β) (l2 : List γ) (n : ℕ), l1.length = n → l2.length = n →
      List.zipWith f l1 l2 =
        (List.range n).map (fun i => f (l1.getD i d1) (l2.getD i d2)) := by
  intro l1
  induction l1 with
  | nil =>
    intro l2 n h1 h2
    subst h1
    have : l2 = [] := List.eq_nil_of_length_eq_zero h2
    subst this
    simp
  | cons x t1 ih =>
    intro l2 n h1 h2
    cases l2 with
    | nil => simp at h1 h2; omega
    | cons y t2 =>
      cases n with
      | zero => simp at h1
      | succ m =>
        have ht1 : t1.length = m := by simpa using h1
        have ht2 : t2.length = m := by simpa using h2
        simp only [List.zipWith_cons_cons, List.range_succ_eq_map, List.map_cons,
          List.map_map, List.getD_cons_zero]
        rw [ih t2 m ht1 ht2]
        rfl

/-- A map over a list of length `n`, rewritten as a map over `List.range n`
with default-valued indexing. -/
theorem list_map_eq_range_map {β γ : Type} (f : β → γ) (d : β) :
    ∀ (l : List β) (n : ℕ), l.length = n →
      l.map f = (List.range n).map (fun i => f (l.getD i d)) := by
  intro l
  induction l with
  | nil =>
    intro n h
    subst h
    simp
  | cons x t ih =>
    intro n h
    cases n with
    | zero => simp at h
    | succ m =>
      have ht : t.length = m := by simpa using h
      simp only [List.map_cons, List.range_succ_eq_map, List.map_map,
        List.getD_cons_zero]
      rw [ih m ht]
      rfl

/-- Every element of a zipWith satisfies a property that holds for all images
of the function. -/
theorem list_forall_mem_zipWith {β γ δ : Type} (f : β → γ → δ) (P : δ → Prop)
    (hf : ∀ a b, P (f a b)) :
    ∀ (l1 : List β) (l2 : List γ), ∀ z ∈ List.zipWith f l1 l2, P z
  | [], _, _, hz => absurd hz (by simp)
  | _ :: _, [], _, hz => absurd hz (by simp)
  | a :: t1, b :: t2, z, hz => by
      rcases (by simpa using hz : z = f a b ∨ z ∈ List.zipWith f t1 t2) with h | h
      · exact h ▸ hf a b
      · exact list_forall_mem_zipWith f P hf t1 t2 z h

/-- Looking a key up in the left part of an appended association list. -/
theorem list_lookup_append_left {β : Type} (k : ℕ) (v : β) :
    ∀ (l1 l2 : List (ℕ × β)), List.lookup k l1 = some v →
      List.lookup k (l1 ++ l2) = some v
  | [], _, h => absurd h (by simp [List.lookup])
  | (k1, v1) :: t1, l2, h => by
      by_cases hk : k == k1
      · simpa [List.lookup, hk] using (by simpa [List.lookup, hk] using h : v1 = v)
      · simp only [List.lookup, List.cons_append, hk] at h ⊢
        exact list_lookup_append_left k v t1 l2 h

/-- Looking a key up past the left part of an appended association list. -/
theorem list_lookup_append_right {β : Type} (k : ℕ) :
    ∀ (l1 l2 : List (ℕ × β)), List.lookup k l1 = none →
      List.lookup k (l1 ++ l2) = List.lookup k l2
  | [], _, _ => rfl
  | (k1, v1) :: t1, l2, h => by
      by_cases hk : k == k1
      · simp [List.lookup, hk] at h
      · simp only [List.lookup, List.cons_append, hk] at h ⊢
        exact list_lookup_append_right k t1 l2 h

/-- Keys at or above `n` are absent from the range-indexed association list. -/
theorem list_lookup_range_map_ge {β : Type} (g : ℕ → β) :
    ∀ (n l : ℕ), n ≤ l →
      List.lookup l ((List.range n).map (fun i => (i, g i))) = none := by
  intro n
  induction n with
  | zero => intro l _; simp
  | succ m ih =>
    intro l hl
    rw [List.range_succ, List.map_append]
    rw [list_lookup_append_right l _ _ (ih l (by omega))]
    have : (l == m) = false := by simp; omega
    simp [List.lookup, this]

/-- Keys below `n` are found in the range-indexed association list. -/
theorem list_lookup_range_map_lt {β : Type} (g : ℕ → β) :
    ∀ (n l : ℕ), l < n →
      List.lookup l ((List.range n).map (fun i => (i, g i))) = some (g l) := by
  intro n
  induction n with
  | zero => intro l hl; omega
  | succ m ih =>
    intro l hl
    rw [List.range_succ, List.map_append]
    by_cases h : l < m
    · exact list_lookup_append_left l (g l) _ _ (ih l h)
    · have hlm : l = m := by omega
      subst hlm
      rw [list_lookup_append_right l _ _ (list_lookup_range_map_ge g l l le_rfl)]
      simp [List.lookup]

/-- The mean of a non-empty list of values in `[0, 1]` is defined and lies in
`[0, 1]`. -/
theorem mean_mem_unit {α : Type} [LinearOrderedField α] (l : List α)
    (hne : l.length ≠ 0) (h01 : ∀ x ∈ l, 0 ≤ x ∧ x ≤ 1) :
    ∃ r, mean l = some r ∧ 0 ≤ r ∧ r ≤ 1 := by
  have hpos : 0 < l.length := Nat.pos_of_ne_zero hne
  have hcast : (0 : α) < (l.length : α) := by exact_mod_cast hpos
  refine ⟨l.sum / (l.length : α), ?_, ?_, ?_⟩
  · unfold mean
    rw [if_neg hne]
  · exact div_nonneg (List.sum_nonneg fun x hx => (h01 x hx).1) hcast.le
  · rw [div_le_one hcast]
    calc l.sum ≤ l.length • (1 : α) := List.sum_le_card_nsmul l 1 fun x hx => (h01 x hx).2
      _ = (l.length : α) := by simp

/-- Each `geInd` value lies in `[0, 1]`. -/
theorem geInd_mem_unit {α : Type} [LinearOrderedField α] (x y : α) :
    0 ≤ geInd x y ∧ geInd x y ≤ 1 := by
  unfold geInd
  split <;> norm_num

/-- The mean of a non-empty zipWith of `geInd` comparisons is defined and lies
in `[0, 1]`. -/
theorem mean_zipWith_geInd_unit {α : Type} [LinearOrderedField α]
    (l1 l2 : List α) (h1 : l1.length ≠ 0) (h2 : l2.length ≠ 0) :
    ∃ r, mean (List.zipWith geInd l1 l2) = some r ∧ 0 ≤ r ∧ r ≤ 1 := by
  apply mean_mem_unit
  · rw [List.length_zipWith]
    omega
  · exact list_forall_mem_zipWith geInd _ geInd_mem_unit l1 l2

/-- Claim C10: the restricted mode of `dual_context_accuracy` never reads the
decoder bias: two runs that differ only in the bias vector return the same
accuracy. -/
theorem dual_restricted_ignores_bias {α : Type} [LinearOrderedField α]
    (rexp rlog : α → α) (w : List (List α)) (b1 b2 : List α)
    (activations counterActivations : List (List α)) (tokenIds : List ℕ) :
    dualContextAccuracy rexp rlog w b1 activations counterActivations tokenIds false =
      dualContextAccuracy rexp rlog w b2 activations counterActivations tokenIds false := by
  rfl

/-- Claim C9: `final_token` holds at position `p` of a sentence iff
`p = length - 1` (as integers), and on a non-empty sentence exactly one
position below the length is selected. -/
theorem final_token_selects_last (item : CorpusExample) (p : ℕ) :
    (final_token p item = true ↔ (p : ℤ) = (item.sen.length : ℤ) - 1) ∧
      (0 < item.sen.length →
        ∃! q : ℕ, q < item.sen.length ∧ final_token q item = true) := by
  constructor
  · unfold final_token
    rw [beq_iff_eq]
    omega
  · intro hpos
    refine ⟨item.sen.length - 1, ⟨by omega, ?_⟩, ?_⟩
    · unfold final_token
      rw [beq_iff_eq]
      omega
    · intro q hq
      have := hq.2
      unfold final_token at this
      rw [beq_iff_eq] at this
      omega

/-- Claim C7 (amended): whenever the retained activation and token-id lists
are non-empty, the single-context accuracy and the dual-context accuracy (in
both modes) are defined and lie in `[0, 1]`. -/
theorem accuracy_in_unit_interval {α : Type} [LinearOrderedField α]
    (rexp rlog : α → α) (w : List (List α)) (b : List α)
    (A B : List (List α)) (ts cs : List ℕ) (full : Bool)
    (hA : A.length ≠ 0) (hB : B.length ≠ 0) (hts : ts.length ≠ 0)
    (hcs : cs.length ≠ 0) :
    (∃ r, singleContextAccuracy w b A ts cs = some r ∧ 0 ≤ r ∧ r ≤ 1) ∧
      (∃ r, dualContextAccuracy rexp rlog w b A B ts full = some r ∧ 0 ≤ r ∧ r ≤ 1) := by
  constructor
  · simp only [singleContextAccuracy]
    apply mean_zipWith_geInd_unit <;>
      simp only [List.length_zipWith, List.length_map] <;> omega
  · cases full
    · simp only [dualContextAccuracy, Bool.false_eq_true, if_false]
      apply mean_zipWith_geInd_unit <;>
        simp only [List.length_zipWith, List.length_map] <;> omega
    · simp only [dualContextAccuracy, if_true]
      apply mean_zipWith_geInd_unit <;>
        simp only [List.length_zipWith, List.length_map] <;> omega

/-- Witness for the amended C7 at a concrete one-example input. -/
theorem accuracy_in_unit_interval_witness :
    (([[(2 : ℚ)]] : List (List ℚ)).length ≠ 0) ∧
      ((∃ r, singleContextAccuracy [[(1 : ℚ)]] [0] [[2]] [0] [0] = some r ∧ 0 ≤ r ∧ r ≤ 1) ∧
        (∃ r, dualContextAccuracy id id [[(1 : ℚ)]] [0] [[2]] [[3]] [0] true = some r ∧
          0 ≤ r ∧ r ≤ 1)) :=
  ⟨by decide,
   accuracy_in_unit_interval id id [[1]] [0] [[2]] [[3]] [0] [0] true
     (by decide) (by decide) (by decide) (by decide)⟩

/-- Claim C7 counterexample: with an empty retained set the mean is the NaN of
`torch.mean` on an empty tensor (modelled `none`), so the returned value is
not a scalar in `[0, 1]`. -/
theorem accuracy_empty_cex :
    ¬ ∃ r : ℚ, singleContextAccuracy [[(1 : ℚ)]] [0] [] [] [] = some r ∧ 0 ≤ r ∧ r ≤ 1 := by
  simp [singleContextAccuracy, mean]

/-- Claim C8: for every layer index below `numLayers`, the zero init states
hold a layer entry whose `hx` and `cx` arrays are zero-filled with the layer
sizes of the size spec; with a configured batch size the shape is
`(batchSize, size)`, without one it is `(size,)`. -/
theorem create_zero_init_states_spec {α : Type} [LinearOrderedField α]
    (numLayers : ℕ) (hSize cSize : ℕ → ℕ) (batchSize : Option ℕ) (l : ℕ)
    (hl : l < numLayers) :
    ∃ entry : ZeroLayer α,
      List.lookup l (create_zero_init_states numLayers hSize cSize batchSize) = some entry ∧
      (∀ bs, batchSize = some bs →
        (∃ m, entry.hx = Arr.mat m ∧ m.length = bs ∧
          ∀ row ∈ m, row.length = hSize l ∧ ∀ x ∈ row, x = (0 : α)) ∧
        (∃ m, entry.cx = Arr.mat m ∧ m.length = bs ∧
          ∀ row ∈ m, row.length = cSize l ∧ ∀ x ∈ row, x = (0 : α))) ∧
      (batchSize = none →
        (∃ v, entry.hx = Arr.vec v ∧ v.length = hSize l ∧ ∀ x ∈ v, x = (0 : α)) ∧
        (∃ v, entry.cx = Arr.vec v ∧ v.length = cSize l ∧ ∀ x ∈ v, x = (0 : α))) := by
  refine ⟨ZeroLayer.mk (createZeroState batchSize (cSize l))
      (createZeroState batchSize (hSize l)), ?_, ?_, ?_⟩
  · unfold create_zero_init_states
    exact list_lookup_range_map_lt _ numLayers l hl
  · rintro bs rfl
    constructor
    · refine ⟨_, rfl, List.length_replicate _ _, fun row hrow => ?_⟩
      rw [List.eq_of_mem_replicate hrow]
      exact ⟨List.length_replicate _ _, fun x hx => List.eq_of_mem_replicate hx⟩
    · refine ⟨_, rfl, List.length_replicate _ _, fun row hrow => ?_⟩
      rw [List.eq_of_mem_replicate hrow]
      exact ⟨List.length_replicate _ _, fun x hx => List.eq_of_mem_replicate hx⟩
  · rintro rfl
    exact ⟨⟨_, rfl, List.length_replicate _ _, fun x hx => List.eq_of_mem_replicate hx⟩,
      ⟨_, rfl, List.length_replicate _ _, fun x hx => List.eq_of_mem_replicate hx⟩⟩

/-- Witness for C8 at a concrete unbatched two-layer configuration. -/
theorem create_zero_init_states_spec_witness :
    0 < 2 ∧
    ∃ entry : ZeroLayer ℚ,
      List.lookup 1 (create_zero_init_states 2 (fun _ => 3) (fun _ => 2) none) = some entry ∧
      (∀ bs, (none : Option ℕ) = some bs →
        (∃ m, entry.hx = Arr.mat m ∧ m.length = bs ∧
          ∀ row ∈ m, row.length = 3 ∧ ∀ x ∈ row, x = (0 : ℚ)) ∧
        (∃ m, entry.cx = Arr.mat m ∧ m.length = bs ∧
          ∀ row ∈ m, row.length = 2 ∧ ∀ x ∈ row, x = (0 : ℚ))) ∧
      ((none : Option ℕ) = none →
        (∃ v, entry.hx = Arr.vec v ∧ v.length = 3 ∧ ∀ x ∈ v, x = (0 : ℚ)) ∧
        (∃ v, entry.cx = Arr.vec v ∧ v.length = 2 ∧ ∀ x ∈ v, x = (0 : ℚ))) :=
  ⟨by decide, create_zero_init_states_spec 2 (fun _ => 3) (fun _ => 2) none 1 (by decide)⟩

/-- The per-layer validation loop succeeds iff every listed layer has an entry
with both keys and the expected vector lengths. -/
theorem validateLayers_ok_iff {α : Type} (hS cS : ℕ → ℕ)
    (bundle : List (ℕ × BundleEntry α)) :
    ∀ ls : List ℕ, validateLayers hS cS bundle ls = Except.ok () ↔
      ∀ l ∈ ls, ∃ e, List.lookup l bundle = some e ∧
        ∃ hv cv, e.hx = some hv ∧ e.cx = some cv ∧
          hv.length = hS l ∧ cv.length = cS l := by
  intro ls
  induction ls with
  | nil => simp [validateLayers]
  | cons l rest ih =>
    simp only [validateLayers, List.forall_mem_cons]
    cases hlook : List.lookup l bundle with
    | none =>
      simp only [hlook]
      constructor
      · intro h; simp at h
      · rintro ⟨⟨e, he, _⟩, _⟩; simp at he
    | some e =>
      rcases e with ⟨ehx, ecx⟩
      cases ehx with
      | none =>
        simp only [hlook]
        constructor
        · intro h; simp at h
        · rintro ⟨⟨e, he, hv, cv, hhv, _⟩, _⟩
          rw [Option.some_inj] at he
          rw [← he] at hhv
          simp at hhv
      | some hv =>
        cases ecx with
        | none =>
          simp only [hlook]
          constructor
          · intro h; simp at h
          · rintro ⟨⟨e, he, hv2, cv, _, hcv, _⟩, _⟩
            rw [Option.some_inj] at he
            rw [← he] at hcv
            simp at hcv
        | some cv =>
          simp only [hlook]
          by_cases h1 : hv.length = hS l
          · by_cases h2 : cv.length = cS l
            · rw [if_neg (by simpa using h1), if_neg (by simpa using h2), ih]
              constructor
              · intro h
                exact ⟨⟨_, rfl, hv, cv, rfl, rfl, h1, h2⟩, h⟩
              · rintro ⟨_, h⟩; exact h
            · rw [if_neg (by simpa using h1), if_pos (by simpa using h2)]
              constructor
              · intro h; simp at h
              · rintro ⟨⟨e, he, hv2, cv2, hh, hc, _, hlen⟩, _⟩
                rw [Option.some_inj] at he
                rw [← he] at hh hc
                simp only [BundleEntry.mk.injEq, Option.some_inj] at hh hc
                rw [← hc] at hlen
                exact absurd hlen h2
          · rw [if_pos (by simpa using h1)]
            constructor
            · intro h; simp at h
            · rintro ⟨⟨e, he, hv2, cv2, hh, hc, hlen, _⟩, _⟩
              rw [Option.some_inj] at he
              rw [← he] at hh
              simp only [Option.some_inj] at hh
              rw [← hh] at hlen
              exact absurd hlen h1

/-- Claim C3 (amended): `_validate` succeeds exactly when the layer count
matches and every layer below `numLayers` has an entry with both the `hx` and
`cx` keys and the vector lengths of the size spec; equivalently, it fails
exactly under conditions (a), (b), (c) of the claim. -/
theorem validate_ok_iff {α : Type} (numLayers : ℕ) (hS cS : ℕ → ℕ)
    (bundle : List (ℕ × BundleEntry α)) :
    validate numLayers hS cS bundle = Except.ok () ↔
      (bundle.length = numLayers ∧
        ∀ l, l < numLayers → ∃ e, List.lookup l bundle = some e ∧
          ∃ hv cv, e.hx = some hv ∧ e.cx = some cv ∧
            hv.length = hS l ∧ cv.length = cS l) := by
  unfold validate
  by_cases hlen : bundle.length = numLayers
  · rw [if_pos hlen, validateLayers_ok_iff]
    simp [List.mem_range, hlen]
  · rw [if_neg hlen]
    constructor
    · intro h; simp at h
    · rintro ⟨h, _⟩; exact absurd h hlen

/-- Witness for the amended C3: a well-shaped one-layer bundle validates. -/
theorem validate_ok_iff_witness :
    validate 1 (fun _ => 2) (fun _ => 1)
      [(0, BundleEntry.mk (some [(0 : ℚ), 0]) (some [0]))] = Except.ok () :=
  (validate_ok_iff 1 (fun _ => 2) (fun _ => 1)
      [(0, BundleEntry.mk (some [(0 : ℚ), 0]) (some [0]))]).mpr
    ⟨rfl, by
      intro l hl
      have hl0 : l = 0 := by omega
      subst hl0
      exact ⟨_, rfl, _, _, rfl, rfl, rfl, rfl⟩⟩

/-- Claim C3 counterexample: two bundles whose offending layer differs (layer
0 vs layer 1) produce the identical error message, so the shape-mismatch
error does not identify the offending layer. -/
theorem validate_message_no_layer_cex :
    validate 2 (fun _ => 2) (fun _ => 2)
        [(0, BundleEntry.mk (some [(0 : ℚ), 0, 0]) (some [0, 0])),
         (1, BundleEntry.mk (some [0, 0]) (some [0, 0]))] =
      Except.error ("Initial activation size for hx is incorrect: hx: "
        ++ toString (3 : ℕ) ++ ", should be " ++ toString (2 : ℕ)) ∧
    validate 2 (fun _ => 2) (fun _ => 2)
        [(0, BundleEntry.mk (some [(0 : ℚ), 0]) (some [0, 0])),
         (1, BundleEntry.mk (some [0, 0, 0]) (some [0, 0]))] =
      Except.error ("Initial activation size for hx is incorrect: hx: "
        ++ toString (3 : ℕ) ++ ", should be " ++ toString (2 : ℕ)) := by
  constructor <;> rfl

/-- Claim C4: for retained sentence `i` with final state `A i`, target id
`ts i` and counter id `cs i`, the single-context accuracy is the mean over
all sentences of the indicator that is `1` exactly when
`dot (w (cs i)) (A i) + b (cs i) ≤ dot (w (ts i)) (A i) + b (ts i)`,
i.e. `logit(target) >= logit(counterTarget)` with an exact tie counting as
correct. -/
theorem single_context_accuracy_spec {α : Type} [LinearOrderedField α]
    (w : List (List α)) (b : List α) (A : List (List α)) (ts cs : List ℕ)
    (n : ℕ) (hA : A.length = n) (hts : ts.length = n) (hcs : cs.length = n) :
    singleContextAccuracy w b A ts cs =
      mean ((List.range n).map (fun i =>
        if dot (w.getD (cs.getD i 0) []) (A.getD i []) + b.getD (cs.getD i 0) 0 ≤
            dot (w.getD (ts.getD i 0) []) (A.getD i []) + b.getD (ts.getD i 0) 0
        then (1 : α) else 0)) := by
  simp only [singleContextAccuracy]
  congr 1
  rw [list_zipWith_eq_range_map geInd (0 : α) (0 : α) _ _ n
    (by simp [List.length_zipWith, List.length_map, hts, hA])
    (by simp [List.length_zipWith, List.length_map, hcs, hA])]
  refine List.map_congr_left ?_
  intro i hi
  rw [List.mem_range] at hi
  rw [list_getD_zipWith (fun x y => x + y) _ _ i (0 : α) (0 : α) (0 : α)
    (by simp [List.length_zipWith, List.length_map, hts, hA]; omega)
    (by simp [List.length_map, hts]; omega)]
  rw [list_getD_zipWith (fun x y => x + y) _ _ i (0 : α) (0 : α) (0 : α)
    (by simp [List.length_zipWith, List.length_map, hcs, hA]; omega)
    (by simp [List.length_map, hcs]; omega)]
  rw [list_getD_zipWith (fun wr a => dot wr a) _ _ i [] [] (0 : α)
    (by simp [List.length_map, hts]; omega) (by omega : i < A.length)]
  rw [list_getD_zipWith (fun wr a => dot wr a) _ _ i [] [] (0 : α)
    (by simp [List.length_map, hcs]; omega) (by omega : i < A.length)]
  rw [list_getD_map (fun t => w.getD t []) ts i 0 [] (by omega)]
  rw [list_getD_map (fun t => b.getD t 0) ts i 0 (0 : α) (by omega)]
  rw [list_getD_map (fun t => w.getD t []) cs i 0 [] (by omega)]
  rw [list_getD_map (fun t => b.getD t 0) cs i 0 (0 : α) (by omega)]
  rfl

/-- Witness for C4 at a concrete two-sentence input. -/
theorem single_context_accuracy_spec_witness :
    (([[(2 : ℚ)], [3]] : List (List ℚ)).length = 2) ∧
      singleContextAccuracy [[(1 : ℚ)], [2]] [0, 1] [[2], [3]] [0, 1] [1, 0] =
        mean ((List.range 2).map (fun i =>
          if dot ([[(1 : ℚ)], [2]].getD (([1, 0] : List ℕ).getD i 0) [])
                (([[(2 : ℚ)], [3]] : List (List ℚ)).getD i []) +
                ([(0 : ℚ), 1].getD (([1, 0] : List ℕ).getD i 0) 0) ≤
              dot ([[(1 : ℚ)], [2]].getD (([0, 1] : List ℕ).getD i 0) [])
                (([[(2 : ℚ)], [3]] : List (List ℚ)).getD i []) +
                ([(0 : ℚ), 1].getD (([0, 1] : List ℕ).getD i 0) 0)
          then (1 : ℚ) else 0)) :=
  ⟨rfl, single_context_accuracy_spec [[1], [2]] [0, 1] [[2], [3]] [0, 1] [1, 0] 2
    rfl rfl rfl⟩

/-- Claim C5 (amended): in `DownstreamTask.dual_context_accuracy` — both the
full-probability and the restricted mode — the per-example indicator is `1`
exactly when context A's score is greater than or equal to context B's score
(a tie counts as correct) and the accuracy is the mean indicator; in the
warstadt task-specific variant (with or without the decoder bias) the
comparison is strict, so a tie counts as incorrect. -/
theorem dual_tie_policy_spec {α : Type} [LinearOrderedField α]
    (rexp rlog : α → α) (w : List (List α)) (b : List α)
    (A B : List (List α)) (ts : List ℕ) (n : ℕ)
    (hA : A.length = n) (hB : B.length = n) (hts : ts.length = n) :
    (dualContextAccuracy rexp rlog w b A B ts true =
      mean ((List.range n).map (fun i =>
        if (logSoftmaxRow rexp rlog (matVecRow w b (B.getD i []))).getD (ts.getD i 0) 0 ≤
            (logSoftmaxRow rexp rlog (matVecRow w b (A.getD i []))).getD (ts.getD i 0) 0
        then (1 : α) else 0))) ∧
    (dualContextAccuracy rexp rlog w b A B ts false =
      mean ((List.range n).map (fun i =>
        if dot (w.getD (ts.getD i 0) []) (B.getD i []) ≤
            dot (w.getD (ts.getD i 0) []) (A.getD i [])
        then (1 : α) else 0))) ∧
    (warstadtAccuracy w b A B ts false =
      mean ((List.range n).map (fun i =>
        if dot (w.getD (ts.getD i 0) []) (B.getD i []) <
            dot (w.getD (ts.getD i 0) []) (A.getD i [])
        then (1 : α) else 0))) ∧
    (warstadtAccuracy w b A B ts true =
      mean ((List.range n).map (fun i =>
        if dot (w.getD (ts.getD i 0) []) (B.getD i []) + b.getD (ts.getD i 0) 0 <
            dot (w.getD (ts.getD i 0) []) (A.getD i []) + b.getD (ts.getD i 0) 0
        then (1 : α) else 0))) := by
  refine ⟨?_, ?_, ?_, ?_⟩
  · simp only [dualContextAccuracy, if_true]
    congr 1
    rw [list_zipWith_eq_range_map geInd (0 : α) (0 : α) _ _ n
      (by simp [List.length_zipWith, List.length_map, hts, hA])
      (by simp [List.length_zipWith, List.length_map, hts, hB])]
    refine List.map_congr_left ?_
    intro i hi
    rw [List.mem_range] at hi
    rw [list_getD_zipWith (fun row t => row.getD t 0) _ _ i [] 0 (0 : α)
      (by simp [List.length_map, hA]; omega) (by omega : i < ts.length)]
    rw [list_getD_zipWith (fun row t => row.getD t 0) _ _ i [] 0 (0 : α)
      (by simp [List.length_map, hB]; omega) (by omega : i < ts.length)]
    rw [list_getD_map (fun a => logSoftmaxRow rexp rlog (matVecRow w b a)) A i [] []
      (by omega)]
    rw [list_getD_map (fun a => logSoftmaxRow rexp rlog (matVecRow w b a)) B i [] []
      (by omega)]
    rfl
  · simp only [dualContextAccuracy, Bool.false_eq_true, if_false]
    congr 1
    rw [list_zipWith_eq_range_map geInd (0 : α) (0 : α) _ _ n
      (by simp [List.length_zipWith, List.length_map, hts, hA])
      (by simp [List.length_zipWith, List.length_map, hts, hB])]
    refine List.map_congr_left ?_
    intro i hi
    rw [List.mem_range] at hi
    rw [list_getD_zipWith (fun wr a => dot wr a) _ _ i [] [] (0 : α)
      (by simp [List.length_map, hts]; omega) (by omega : i < A.length)]
    rw [list_getD_zipWith (fun wr a => dot wr a) _ _ i [] [] (0 : α)
      (by simp [List.length_map, hts]; omega) (by omega : i < B.length)]
    rw [list_getD_map (fun t => w.getD t []) ts i 0 [] (by omega)]
    rfl
  · simp only [warstadtAccuracy, Bool.false_eq_true, if_false]
    congr 1
    rw [list_zipWith_eq_range_map gtInd (0 : α) (0 : α) _ _ n
      (by simp [List.length_zipWith, hts, hA])
      (by simp [List.length_zipWith, hts, hB])]
    refine List.map_congr_left ?_
    intro i hi
    rw [List.mem_range] at hi
    rw [list_getD_zipWith (fun t h => dot (w.getD t []) h) _ _ i 0 [] (0 : α)
      (by omega : i < ts.length) (by omega : i < A.length)]
    rw [list_getD_zipWith (fun t h => dot (w.getD t []) h) _ _ i 0 [] (0 : α)
      (by omega : i < ts.length) (by omega : i < B.length)]
    rfl
  · simp only [warstadtAccuracy, if_true]
    congr 1
    rw [list_zipWith_eq_range_map gtInd (0 : α) (0 : α) _ _ n
      (by simp [List.length_zipWith, hts, hA])
      (by simp [List.length_zipWith, hts, hB])]
    refine List.map_congr_left ?_
    intro i hi
    rw [List.mem_range] at hi
    rw [list_getD_zipWith (fun p t => p + b.getD t 0) _ _ i (0 : α) 0 (0 : α)
      (by simp [List.length_zipWith, hts, hA]; omega) (by omega : i < ts.length)]
    rw [list_getD_zipWith (fun p t => p + b.getD t 0) _ _ i (0 : α) 0 (0 : α)
      (by simp [List.length_zipWith, hts, hB]; omega) (by omega : i < ts.length)]
    rw [list_getD_zipWith (fun t h => dot (w.getD t []) h) _ _ i 0 [] (0 : α)
      (by omega : i < ts.length) (by omega : i < A.length)]
    rw [list_getD_zipWith (fun t h => dot (w.getD t []) h) _ _ i 0 [] (0 : α)
      (by omega : i < ts.length) (by omega : i < B.length)]
    rfl

/-- Witness for the amended C5: the restricted-mode equation at a concrete
one-example input. -/
theorem dual_tie_policy_spec_witness :
    (([[(2 : ℚ)]] : List (List ℚ)).length = 1) ∧
      dualContextAccuracy id id [[(1 : ℚ)]] [0] [[2]] [[3]] [0] false =
        mean ((List.range 1).map (fun i =>
          if dot ([[(1 : ℚ)]].getD (([0] : List ℕ).getD i 0) [])
                (([[(3 : ℚ)]] : List (List ℚ)).getD i []) ≤
              dot ([[(1 : ℚ)]].getD (([0] : List ℕ).getD i 0) [])
                (([[(2 : ℚ)]] : List (List ℚ)).getD i [])
          then (1 : ℚ) else 0)) :=
  ⟨rfl, (dual_tie_policy_spec id id [[1]] [0] [[2]] [[3]] [0] 1 rfl rfl rfl).2.1⟩

/-- Claim C5 counterexample: in the warstadt variant an exact tie yields
indicator `0`, not `1`: with equal scores in both contexts the accuracy is
`0`, while the claimed `>=` policy would give `1`. -/
theorem warstadt_tie_cex :
    warstadtAccuracy [[(1 : ℚ)]] [0] [[2]] [[2]] [0] false = some 0 ∧
      dot ([[(1 : ℚ)]].getD 0 []) [(2 : ℚ)] = dot ([[(1 : ℚ)]].getD 0 []) [(2 : ℚ)] ∧
      some (0 : ℚ) ≠ some (1 : ℚ) := by
  refine ⟨?_, rfl, by norm_num⟩
  norm_num [warstadtAccuracy, mean, gtInd, dot]

/-- Default-valued indexing agrees with optional indexing. -/
theorem list_getD_of_get {β : Type} :
    ∀ (l : List β) (i : ℕ) (x d : β), l.get? i = some x → l.getD i d = x
  | [], i, _, _, h => by simp at h
  | y :: t, 0, x, d, h => by
      simp only [List.get?_cons_zero, Option.some_inj] at h
      simpa using h
  | y :: t, i + 1, x, d, h => by
      simp only [List.get?_cons_succ] at h
      simpa using list_getD_of_get t i x d h

/-- Claim C6: the unk mask retains sentence `i` iff `ignoreUnk` is off or all
of its `sen` tokens are in the vocabulary; every missing token of a retained
corpus produces a (non-fatal) warning naming it; and `calc_accuracy` applies
the identical mask to the activations, the counter activations and every
derived token-id vector. -/
theorem unk_mask_spec {α : Type} [LinearOrderedField α]
    (rexp rlog : α → α) (w : List (List α)) (b : List α)
    (vocab : List (String × ℕ)) (corpus : List CorpusExample) (ignoreUnk : Bool)
    (activations cacts : List (List α)) (full : Bool) (ids : List ℕ)
    (mask : List Bool) (warns : List String)
    (hmw : create_unk_sen_mask vocab corpus ignoreUnk = (mask, warns))
    (hids : lookupTokens vocab (fun ex => ex.token) corpus = Except.ok ids) :
    mask.length = corpus.length ∧
    (∀ i ex, corpus.get? i = some ex →
      (mask.getD i false = true ↔
        (ignoreUnk = false ∨ ∀ t ∈ ex.sen, (List.lookup t vocab).isSome = true))) ∧
    (ignoreUnk = true → ∀ ex ∈ corpus, ∀ t ∈ ex.sen,
      List.lookup t vocab = none → unkWarning t ∈ warns) ∧
    (calc_accuracy rexp rlog w b vocab corpus activations (some cacts) full ignoreUnk =
      Except.ok (dualContextAccuracy rexp rlog w b (maskFilter mask activations)
        (maskFilter mask cacts) (maskFilter mask ids) full, warns)) ∧
    (∀ cids, lookupTokens vocab (fun ex => ex.counter_token) corpus = Except.ok cids →
      calc_accuracy rexp rlog w b vocab corpus activations none full ignoreUnk =
        Except.ok (singleContextAccuracy w b (maskFilter mask activations)
          (maskFilter mask ids) (maskFilter mask cids), warns)) := by
  have hmask : mask = (create_unk_sen_mask vocab corpus ignoreUnk).1 := by rw [hmw]
  have hwarns : warns = (create_unk_sen_mask vocab corpus ignoreUnk).2 := by rw [hmw]
  refine ⟨?_, ?_, ?_, ?_, ?_⟩
  · rw [hmask]
    cases ignoreUnk <;> simp [create_unk_sen_mask]
  · intro i ex hget
    have hi : i < corpus.length := List.get?_eq_some.mp hget |>.1
    rw [hmask]
    cases ignoreUnk with
    | false =>
      simp only [create_unk_sen_mask, Bool.false_eq_true, if_false]
      rw [list_getD_replicate true corpus.length i false hi]
      simp
    | true =>
      simp only [create_unk_sen_mask, if_true]
      rw [list_getD_map (fun ex => ex.sen.all fun t => (List.lookup t vocab).isSome)
        corpus i default false hi]
      rw [list_getD_of_get corpus i ex default hget]
      simp [List.all_eq_true]
  · intro hunk ex hmem t ht hnone
    rw [hwarns]
    subst hunk
    simp only [create_unk_sen_mask, if_true]
    rw [List.mem_flatten]
    refine ⟨(ex.sen.filter fun t => (List.lookup t vocab).isNone).map unkWarning,
      List.mem_map_of_mem _ hmem, ?_⟩
    exact List.mem_map_of_mem _ (List.mem_filter.mpr ⟨ht, by simp [hnone]⟩)
  · simp only [calc_accuracy, hmw, hids]
  · intro cids hcids
    simp only [calc_accuracy, hmw, hids, hcids]

/-- Witness for C6 at a concrete one-sentence corpus. -/
theorem unk_mask_spec_witness :
    (create_unk_sen_mask [("a", 0)] [CorpusExample.mk ["a"] 0 "a" "a"] true =
        ([true], []) ∧
      lookupTokens [("a", 0)] (fun ex => ex.token) [CorpusExample.mk ["a"] 0 "a" "a"] =
        Except.ok [0]) ∧
      calc_accuracy (id : ℚ → ℚ) id [[(1 : ℚ)]] [0] [("a", 0)]
          [CorpusExample.mk ["a"] 0 "a" "a"] [[2]] (some [[3]]) true true =
        Except.ok (dualContextAccuracy (id : ℚ → ℚ) id [[(1 : ℚ)]] [0]
          (maskFilter [true] [[2]]) (maskFilter [true] [[3]]) (maskFilter [true] [0])
          true, []) :=
  ⟨⟨rfl, rfl⟩,
   (unk_mask_spec (id : ℚ → ℚ) id [[1]] [0] [("a", 0)]
      [CorpusExample.mk ["a"] 0 "a" "a"] true [[2]] [[3]] true [0] [true] []
      rfl rfl).2.2.2.1⟩

/-- An out-of-vocabulary string among the looked-up fields makes the token-id
list comprehension fail. -/
theorem lookupTokens_error_of_missing (vocab : List (String × ℕ))
    (f : CorpusExample → String) :
    ∀ corpus : List CorpusExample,
      (∃ ex ∈ corpus, List.lookup (f ex) vocab = none) →
      ∃ msg, lookupTokens vocab f corpus = Except.error msg := by
  intro corpus
  induction corpus with
  | nil => rintro ⟨ex, h, _⟩; simp at h
  | cons e rest ih =>
    rintro ⟨ex, hmem, hnone⟩
    rcases List.mem_cons.mp hmem with rfl | hmem2
    · exact ⟨"KeyError: " ++ f ex, by simp [lookupTokens, stoiLookup, hnone]⟩
    · cases hfe : stoiLookup vocab (f e) with
      | error msg => exact ⟨msg, by simp [lookupTokens, hfe]⟩
      | ok i =>
        rcases ih ⟨ex, hmem2, hnone⟩ with ⟨msg, hmsg⟩
        exact ⟨msg, by simp [lookupTokens, hfe, hmsg]⟩

/-- Claim C2 (amended): a required token — or, in the single-context case, a
counter token — absent from the vocabulary makes `calc_accuracy` fail with a
vocabulary-lookup error for every value of `ignoreUnk`: the lookup runs over
the whole corpus before the mask is applied, so `ignoreUnk = true` does not
downgrade this error to an exclusion-with-warning. -/
theorem calc_accuracy_oov_fatal {α : Type} [LinearOrderedField α]
    (rexp rlog : α → α) (w : List (List α)) (b : List α)
    (vocab : List (String × ℕ)) (corpus : List CorpusExample)
    (activations : List (List α)) (cacts : Option (List (List α)))
    (full ignoreUnk : Bool)
    (h : (∃ ex ∈ corpus, List.lookup ex.token vocab = none) ∨
      (cacts = none ∧ ∃ ex ∈ corpus, List.lookup ex.counter_token vocab = none)) :
    ∃ msg, calc_accuracy rexp rlog w b vocab corpus activations cacts full ignoreUnk =
      Except.error msg := by
  rcases h with h | ⟨hcn, h⟩
  · rcases lookupTokens_error_of_missing vocab (fun ex => ex.token) corpus h with ⟨msg, hmsg⟩
    exact ⟨msg, by simp [calc_accuracy, hmsg]⟩
  · subst hcn
    cases htok : lookupTokens vocab (fun ex => ex.token) corpus with
    | error msg => exact ⟨msg, by simp [calc_accuracy, htok]⟩
    | ok ids =>
      rcases lookupTokens_error_of_missing vocab (fun ex => ex.counter_token) corpus h
        with ⟨msg, hmsg⟩
      exact ⟨msg, by simp [calc_accuracy, htok, hmsg]⟩

/-- Witness for the amended C2: a corpus whose single example has an
out-of-vocabulary target token. -/
theorem calc_accuracy_oov_fatal_witness :
    (∃ ex ∈ [CorpusExample.mk ["a"] 0 "zzz" "a"],
        List.lookup ex.token [("a", 0)] = none) ∧
      ∃ msg, calc_accuracy (id : ℚ → ℚ) id [[(1 : ℚ)]] [0] [("a", 0)]
          [CorpusExample.mk ["a"] 0 "zzz" "a"] [[2]] none true false =
        Except.error msg :=
  ⟨⟨CorpusExample.mk ["a"] 0 "zzz" "a", List.mem_singleton.mpr rfl, rfl⟩,
   calc_accuracy_oov_fatal (id : ℚ → ℚ) id [[1]] [0] [("a", 0)]
     [CorpusExample.mk ["a"] 0 "zzz" "a"] [[2]] none true false
     (Or.inl ⟨CorpusExample.mk ["a"] 0 "zzz" "a", List.mem_singleton.mpr rfl, rfl⟩)⟩

/-- Claim C2 counterexample: with `ignoreUnk = true` and an out-of-vocabulary
required token (whose sentence tokens are all in vocabulary) the computation
is fatal — the sentence is not excluded with a warning. -/
theorem calc_accuracy_ignore_unk_fatal_cex :
    calc_accuracy (id : ℚ → ℚ) id [[(1 : ℚ)]] [0] [("a", 0)]
        [CorpusExample.mk ["a"] 0 "zzz" "a"] [[2]] none true true =
      Except.error ("KeyError: " ++ "zzz") := by
  rfl

/-- Claim C1 (amended): with an all-zero decoder bias, the full-probability
per-example indicator coincides with the restricted-mode indicator whenever
the two contexts' full-vocabulary logit rows have equal log-sum-exp
normalizers (in particular whenever the two activation rows agree); in that
case the two modes of `dual_context_accuracy` agree as well. -/
theorem dual_modes_agree_of_eq_normalizer {α : Type} [LinearOrderedField α]
    (rexp rlog : α → α) (w : List (List α)) (a bAct : List α) (t : ℕ)
    (ht : t < w.length)
    (hnorm : logSumExp rexp rlog (matVecRow w (List.replicate w.length 0) a) =
      logSumExp rexp rlog (matVecRow w (List.replicate w.length 0) bAct)) :
    geInd ((logSoftmaxRow rexp rlog (matVecRow w (List.replicate w.length 0) a)).getD t 0)
        ((logSoftmaxRow rexp rlog (matVecRow w (List.replicate w.length 0) bAct)).getD t 0) =
      geInd (dot (w.getD t []) a) (dot (w.getD t []) bAct) ∧
    dualContextAccuracy rexp rlog w (List.replicate w.length 0) [a] [bAct] [t] true =
      dualContextAccuracy rexp rlog w (List.replicate w.length 0) [a] [bAct] [t] false := by
  have hlena : (matVecRow w (List.replicate w.length 0) a).length = w.length := by
    simp [matVecRow, List.length_zipWith]
  have hlenb : (matVecRow w (List.replicate w.length 0) bAct).length = w.length := by
    simp [matVecRow, List.length_zipWith]
  have hga : (matVecRow w (List.replicate w.length 0) a).getD t 0 = dot (w.getD t []) a := by
    unfold matVecRow
    rw [list_getD_zipWith (fun wi bi => dot wi a + bi) _ _ t [] (0 : α) (0 : α) ht
      (by simp [ht])]
    rw [list_getD_replicate (0 : α) w.length t 0 ht, add_zero]
  have hgb : (matVecRow w (List.replicate w.length 0) bAct).getD t 0 =
      dot (w.getD t []) bAct := by
    unfold matVecRow
    rw [list_getD_zipWith (fun wi bi => dot wi bAct + bi) _ _ t [] (0 : α) (0 : α) ht
      (by simp [ht])]
    rw [list_getD_replicate (0 : α) w.length t 0 ht, add_zero]
  have hind : geInd
      ((logSoftmaxRow rexp rlog (matVecRow w (List.replicate w.length 0) a)).getD t 0)
      ((logSoftmaxRow rexp rlog (matVecRow w (List.replicate w.length 0) bAct)).getD t 0) =
      geInd (dot (w.getD t []) a) (dot (w.getD t []) bAct) := by
    unfold logSoftmaxRow
    rw [list_getD_map (fun x =>
        x - logSumExp rexp rlog (matVecRow w (List.replicate w.length 0) a)) _ t 0 0
      (by omega)]
    rw [list_getD_map (fun x =>
        x - logSumExp rexp rlog (matVecRow w (List.replicate w.length 0) bAct)) _ t 0 0
      (by omega)]
    rw [hga, hgb, ← hnorm]
    simp [geInd, sub_le_sub_iff_right]
  refine ⟨hind, ?_⟩
  simp only [dualContextAccuracy, if_true, Bool.false_eq_true, if_false, List.map_cons,
    List.map_nil, List.zipWith_cons_cons, List.zipWith_nil_right]
  rw [hind]

/-- Witness for the amended C1: identical activation rows give equal
normalizers, and the theorem applies. -/
theorem dual_modes_agree_of_eq_normalizer_witness :
    0 < ([[(1 : ℚ)]] : List (List ℚ)).length ∧
      (geInd ((logSoftmaxRow (id : ℚ → ℚ) id
            (matVecRow [[(1 : ℚ)]] (List.replicate ([[(1 : ℚ)]] : List (List ℚ)).length 0)
              [2])).getD 0 0)
          ((logSoftmaxRow (id : ℚ → ℚ) id
            (matVecRow [[(1 : ℚ)]] (List.replicate ([[(1 : ℚ)]] : List (List ℚ)).length 0)
              [2])).getD 0 0) =
        geInd (dot ([[(1 : ℚ)]].getD 0 []) [2]) (dot ([[(1 : ℚ)]].getD 0 []) [2]) ∧
      dualContextAccuracy (id : ℚ → ℚ) id [[(1 : ℚ)]]
          (List.replicate ([[(1 : ℚ)]] : List (List ℚ)).length 0) [[2]] [[2]] [0] true =
        dualContextAccuracy (id : ℚ → ℚ) id [[(1 : ℚ)]]
          (List.replicate ([[(1 : ℚ)]] : List (List ℚ)).length 0) [[2]] [[2]] [0] false) :=
  ⟨by decide,
   dual_modes_agree_of_eq_normalizer (id : ℚ → ℚ) id [[1]] [2] [2] 0 (by decide) rfl⟩

/-- Claim C1 counterexample: with the all-zero bias `[0, 0]`, decoder weights
`[[2], [1]]`, activations `[[1]]` against counter activations `[[0]]` and
target id `1`, the full-probability mode yields indicator `0` while the
restricted mode yields indicator `1`: the two log-sum-exp normalizers differ,
so the modes disagree even though the bias is zero. -/
theorem dual_modes_disagree_cex :
    dualContextAccuracy Real.exp Real.log [[2], [1]] [0, 0] [[1]] [[0]] [1] true ≠
      dualContextAccuracy Real.exp Real.log [[2], [1]] [0, 0] [[1]] [[0]] [1] false := by
  norm_num [dualContextAccuracy, logSoftmaxRow, logSumExp, matVecRow, dot, mean, geInd]
  have h2 : (2 : ℝ) < Real.exp 1 := by
    have h := Real.add_one_lt_exp (show (1 : ℝ) ≠ 0 by norm_num)
    linarith
  have hx : Real.exp 2 + Real.exp 1 = Real.exp 1 * (Real.exp 1 + 1) := by
    have h21 : Real.exp 2 = Real.exp 1 * Real.exp 1 := by
      rw [← Real.exp_add]; norm_num
    rw [h21]; ring
  rw [hx, Real.log_mul (Real.exp_pos 1).ne' (by positivity), Real.log_exp]
  have hlt : Real.log 2 < Real.log (Real.exp 1 + 1) :=
    Real.log_lt_log (by norm_num) (by linarith)
  linarith

/-- Witness for C9 at a concrete three-token sentence. -/
theorem final_token_selects_last_witness :
    0 < (CorpusExample.mk ["a", "b", "c"] 0 "a" "b").sen.length ∧
      ∃! q : ℕ, q < (CorpusExample.mk ["a", "b", "c"] 0 "a" "b").sen.length ∧
        final_token q (CorpusExample.mk ["a", "b", "c"] 0 "a" "b") = true :=
  ⟨by decide,
   (final_token_selects_last (CorpusExample.mk ["a", "b", "c"] 0 "a" "b") 0).2 (by decide)⟩

end Diagnnose
